import Mathlib

/-!
# Verification of the scimtool LDAP→SCIM bridge

Shallow embedding of the reconciliation core of the `scimtool` repository:
the durable mapping store (`internal/db/users.go`, bolt buckets modelled as
association lists), the membership checker and delta computation
(`internal/idp/main.go`), the fake SCIM adapter (`internal/sp/main.go`), and
the bridge orchestrator (`Sync`, `Add`, `Del` from the `ldap-bridged` main).
-/

set_option maxRecDepth 4096

/-! ## SCIM data model (types.go) -/

/-- `scim.Name` from types.go. -/
structure SCIMName where
  givenName : String
  familyName : String
deriving Repr, DecidableEq

/-- A `scim.Email` entry as built by the bridge (`mapEntry`). -/
structure SCIMEmail where
  type : String
  value : String
  primary : Bool
deriving Repr, DecidableEq

/-- `scim.User` from types.go (metadata omitted; it is never consulted by the core). -/
structure SCIMUser where
  schemas : List String
  id : String
  externalId : String
  userName : String
  name : SCIMName
  emails : List SCIMEmail
  active : Bool
deriving Repr, DecidableEq

/-- The Go zero value of `scim.User` (what `make([]scim.User, n)` fills slots with). -/
def emptyUser : SCIMUser :=
  { schemas := [], id := "", externalId := "", userName := ""
    name := { givenName := "", familyName := "" }, emails := [], active := false }

/-- `scim.UserSchema`. -/
def userSchema : String := "urn:ietf:params:scim:schemas:core:2.0:User"

/-! ## LDAP entries and search results (gopkg.in/ldap.v2, as consumed by the bridge)

An entry is modelled by the attributes the bridge reads: `GetAttributeValue`
on `uid`, `cn`, `sn`, `givenName`, `mail`, `modifyTimestamp` and
`GetAttributeValues("member")`.  An absent attribute is the empty string /
empty list, exactly as `GetAttributeValue` returns. -/

structure Entry where
  dn : String
  uid : String
  cn : String
  sn : String
  givenName : String
  mail : String
  modifyTimestamp : String
  member : List String
deriving Repr, DecidableEq

structure SearchResult where
  entries : List Entry
deriving Repr, DecidableEq

/-! ## Bolt buckets (github.com/boltdb/bolt)

A bucket is a key→value map; we embed it as an association list.
`bput` replaces the value of an existing key in place and otherwise appends,
`bdel` removes the key, `bget` looks a key up.  Keys are unique in bolt, and
every reachable state of the model keeps them unique, so first-match lookup
and filter-based delete coincide with bolt's semantics. -/

def bget {α : Type} : List (String × α) → String → Option α
  | [], _ => none
  | (k1, v) :: rest, k => if k1 = k then some v else bget rest k

def bput {α : Type} : List (String × α) → String → α → List (String × α)
  | [], k, v => [(k, v)]
  | (k1, v1) :: rest, k, v =>
      if k1 = k then (k, v) :: rest else (k1, v1) :: bput rest k v

def bdel {α : Type} (l : List (String × α)) (k : String) : List (String × α) :=
  l.filter (fun kv => kv.1 ≠ k)

theorem bget_bput {α : Type} (l : List (String × α)) (k k2 : String) (v : α) :
    bget (bput l k v) k2 = if k = k2 then some v else bget l k2 := by
  induction l with
  | nil => rfl
  | cons hd tl ih =>
      obtain ⟨k1, v1⟩ := hd
      by_cases h1 : k1 = k
      · subst h1
        by_cases h2 : k1 = k2 <;> simp [bput, bget, h2]
      · by_cases h2 : k1 = k2
        · subst h2
          have hk : ¬ k = k1 := fun h => h1 h.symm
          simp [bput, bget, h1, hk]
        · simp [bput, bget, h1, h2, ih]

theorem bget_bdel {α : Type} (l : List (String × α)) (k k2 : String) :
    bget (bdel l k) k2 = if k = k2 then none else bget l k2 := by
  induction l with
  | nil => simp [bdel, bget]
  | cons hd tl ih =>
      obtain ⟨k1, v1⟩ := hd
      by_cases h1 : k1 = k
      · subst h1
        have hstep : bdel ((k1, v1) :: tl) k1 = bdel tl k1 := by
          simp [bdel, List.filter_cons]
        rw [hstep, ih]
        by_cases h2 : k1 = k2
        · simp [h2]
        · simp [bget, h2]
      · have hstep : bdel ((k1, v1) :: tl) k = (k1, v1) :: bdel tl k := by
          simp [bdel, List.filter_cons, h1]
        rw [hstep]
        by_cases h2 : k1 = k2
        · subst h2
          simp [bget, show ¬ k = k1 from fun h => h1 h.symm]
        · simp [bget, h2, ih]

/-! ## Mapping store (internal/db/users.go)

One root namespace with three sub-buckets: `members` (GUID → user record),
`guids` (GUID → DN), `dns` (DN → GUID).  JSON (de)serialization of the user
record round-trips, so `members` holds the record itself. -/

structure Store where
  members : List (String × SCIMUser)
  guids : List (String × String)
  dns : List (String × String)
deriving Repr, DecidableEq

/-- The prepared store: `Prepare` creates the three empty buckets. -/
def emptyStore : Store := { members := [], guids := [], dns := [] }

/-- `Users.Add(dn, user)` (users.go): writes `members[user.ID] = user`,
`guids[user.ID] = dn` and `dns[dn] = user.ID` in one transaction. -/
def usersAdd (s : Store) (dn : String) (user : SCIMUser) : Store :=
  { members := bput s.members user.id user
    guids := bput s.guids user.id dn
    dns := bput s.dns dn user.id }

/-- `Users.Delete(user)` (users.go): removes `members[user.GUID]`,
`dns[user.DN]` and `guids[user.GUID]` in one transaction. -/
def usersDelete (s : Store) (dn guid : String) : Store :=
  { members := bdel s.members guid
    guids := bdel s.guids guid
    dns := bdel s.dns dn }

/-- `Users.GetGUID(dn)` on a live transaction: `string(nil)` is `""`,
so an absent key yields the empty string. -/
def getGUID (s : Store) (dn : String) : String :=
  (bget s.dns dn).getD ""

/-- `Users.GetDN(guid)` on a live transaction. -/
def getDN (s : Store) (guid : String) : String :=
  (bget s.guids guid).getD ""

/-- `Users.GetGUID(dn)` with its error channel: the only fallible step is
`db.Begin` (transaction acquisition, modelled by `txOk`); afterwards the
bucket `Get` is infallible and an absent key is returned as `""`. -/
def getGUIDTx (txOk : Bool) (s : Store) (dn : String) : Except String String :=
  if txOk then Except.ok ((bget s.dns dn).getD "") else Except.error "begin: tx failed"

/-- `Users.GetDN(guid)` with its error channel, as `getGUIDTx`. -/
def getDNTx (txOk : Bool) (s : Store) (guid : String) : Except String String :=
  if txOk then Except.ok ((bget s.guids guid).getD "") else Except.error "begin: tx failed"

/-- `Users.GetMemberDNs()` (users.go): iterates the `guids` bucket
accumulating every key, then returns `nil, nil`, discarding the accumulator. -/
def getMemberDNs (s : Store) : Option (List String) × Option String :=
  let _dns := s.guids.foldl (fun acc kv => acc ++ [kv.1]) []
  (none, none)

/-- `Users.List()` (users.go): starts from `make([]scim.User, 0)` and appends
each decoded member record in bucket order. -/
def usersList (s : Store) : List SCIMUser :=
  s.members.foldl (fun l kv => l ++ [kv.2]) []

/-! ### C10 and C7 -/

/-- C10: for every mapping-store state, including states where the guid→dn
index is non-empty, `GetMemberDNs` returns a nil DN list and a nil error;
the DNs accumulated during the iteration are discarded, so no member DN is
ever obtainable through this operation. -/
theorem c10_getMemberDNs_discards (s : Store) :
    getMemberDNs s = (none, none) := rfl

/-- C7: an absent DN makes `GetGUID` return the empty string with no error,
an absent GUID makes `GetDN` return the empty string with no error, and an
error can only arise from transaction acquisition failure, never from an
absent key. -/
theorem c7_absent_key_not_error (s : Store) (dn guid : String)
    (hdn : bget s.dns dn = none) (hguid : bget s.guids guid = none) :
    getGUIDTx true s dn = Except.ok "" ∧
    getDNTx true s guid = Except.ok "" ∧
    (∀ txOk d e, getGUIDTx txOk s d = Except.error e → txOk = false) ∧
    (∀ txOk g e, getDNTx txOk s g = Except.error e → txOk = false) := by
  refine ⟨by simp [getGUIDTx, hdn], by simp [getDNTx, hguid], ?_, ?_⟩
  · intro txOk d e h
    cases txOk with
    | false => rfl
    | true => simp [getGUIDTx] at h
  · intro txOk g e h
    cases txOk with
    | false => rfl
    | true => simp [getDNTx] at h

/-- Witness for C7 at a concrete store: `dn1` and `g1` are absent from the
prepared empty store, and the lookups return `Except.ok ""`. -/
theorem c7_witness :
    bget emptyStore.dns "dn1" = none ∧ bget emptyStore.guids "g1" = none ∧
    (getGUIDTx true emptyStore "dn1" = Except.ok "" ∧
     getDNTx true emptyStore "g1" = Except.ok "" ∧
     (∀ txOk d e, getGUIDTx txOk emptyStore d = Except.error e → txOk = false) ∧
     (∀ txOk g e, getDNTx txOk emptyStore g = Except.error e → txOk = false)) :=
  ⟨rfl, rfl, c7_absent_key_not_error emptyStore "dn1" "g1" rfl rfl⟩

/-! ## Membership delta computation (internal/idp/main.go, computeChanges)

`map[string]bool` is used purely as a set keyed by insertion; we embed it as a
duplicate-free list in insertion order (Go's iteration order is unspecified,
and no claim depends on it).  `mput` is map assignment, `mdel` is `delete`. -/

def mput (m : List String) (k : String) : List String :=
  if k ∈ m then m else m ++ [k]

def mdel (m : List String) (k : String) : List String :=
  m.filter (fun x => x ≠ k)

/-- `computeChanges(before, after)`: builds the before/after member sets,
seeds `added` with every after-member and deletes every before-member,
symmetrically for `removed`, then lists the surviving keys. -/
def computeChanges (before after : List String) : List String × List String :=
  let bs := before.foldl mput []
  let afs := after.foldl mput []
  let added := bs.foldl mdel (afs.foldl mput [])
  let removed := afs.foldl mdel (bs.foldl mput [])
  (added, removed)

theorem mem_mput (m : List String) (k x : String) :
    x ∈ mput m k ↔ x ∈ m ∨ x = k := by
  by_cases h : k ∈ m
  · simp only [mput, if_pos h]
    constructor
    · exact Or.inl
    · rintro (hx | rfl) <;> [exact hx; exact h]
  · simp [mput, if_neg h]

theorem mem_foldl_mput (l m : List String) (x : String) :
    x ∈ l.foldl mput m ↔ x ∈ m ∨ x ∈ l := by
  induction l generalizing m with
  | nil => simp
  | cons a l ih => simp [List.foldl_cons, ih, mem_mput, or_assoc]

theorem nodup_mput (m : List String) (k : String) (h : m.Nodup) :
    (mput m k).Nodup := by
  by_cases hk : k ∈ m
  · simpa [mput, if_pos hk] using h
  · simp only [mput, if_neg hk]
    simpa [List.nodup_append] using ⟨h, hk⟩

theorem nodup_foldl_mput (l m : List String) (h : m.Nodup) :
    (l.foldl mput m).Nodup := by
  induction l generalizing m with
  | nil => simpa
  | cons a l ih => exact ih (mput m a) (nodup_mput m a h)

theorem mem_mdel (m : List String) (k x : String) :
    x ∈ mdel m k ↔ x ∈ m ∧ x ≠ k := by
  simp [mdel, List.mem_filter]

theorem mem_foldl_mdel (l m : List String) (x : String) :
    x ∈ l.foldl mdel m ↔ x ∈ m ∧ x ∉ l := by
  induction l generalizing m with
  | nil => simp
  | cons a l ih =>
      simp [List.foldl_cons, ih, mem_mdel]
      tauto

theorem nodup_foldl_mdel (l m : List String) (h : m.Nodup) :
    (l.foldl mdel m).Nodup := by
  induction l generalizing m with
  | nil => simpa
  | cons a l ih => exact ih (mdel m a) (List.Nodup.filter _ h)

/-- C3: `computeChanges` computes exactly the set difference pair
`(A \ B, B \ A)`: its `added` output holds precisely the DNs in `after` and
not in `before`, its `removed` output precisely the DNs in `before` and not
in `after`, both outputs are duplicate-free, and the outputs (as sets) are
unchanged under reordering or duplication of either input list. -/
theorem c3_computeChanges_delta (before after : List String) :
    (∀ d, d ∈ (computeChanges before after).1 ↔ d ∈ after ∧ d ∉ before) ∧
    (∀ d, d ∈ (computeChanges before after).2 ↔ d ∈ before ∧ d ∉ after) ∧
    (computeChanges before after).1.Nodup ∧
    (computeChanges before after).2.Nodup ∧
    (∀ b2 a2 : List String, b2.toFinset = before.toFinset →
      a2.toFinset = after.toFinset →
      (∀ d, d ∈ (computeChanges b2 a2).1 ↔ d ∈ (computeChanges before after).1) ∧
      (∀ d, d ∈ (computeChanges b2 a2).2 ↔ d ∈ (computeChanges before after).2)) := by
  have hmem : ∀ (b a : List String) (d : String),
      (d ∈ (computeChanges b a).1 ↔ d ∈ a ∧ d ∉ b) ∧
      (d ∈ (computeChanges b a).2 ↔ d ∈ b ∧ d ∉ a) := by
    intro b a d
    constructor <;>
      simp [computeChanges, mem_foldl_mdel, mem_foldl_mput]
  refine ⟨fun d => (hmem before after d).1, fun d => (hmem before after d).2, ?_, ?_, ?_⟩
  · exact nodup_foldl_mdel _ _ (nodup_foldl_mput _ _ List.nodup_nil)
  · exact nodup_foldl_mdel _ _ (nodup_foldl_mput _ _ List.nodup_nil)
  · intro b2 a2 hb ha
    have hb2 : ∀ x, x ∈ b2 ↔ x ∈ before := by
      intro x
      rw [← List.mem_toFinset, hb, List.mem_toFinset]
    have ha2 : ∀ x, x ∈ a2 ↔ x ∈ after := by
      intro x
      rw [← List.mem_toFinset, ha, List.mem_toFinset]
    refine ⟨fun d => ?_, fun d => ?_⟩
    · rw [(hmem b2 a2 d).1, (hmem before after d).1]
      simp [hb2, ha2]
    · rw [(hmem b2 a2 d).2, (hmem before after d).2]
      simp [hb2, ha2]

/-- Witness for C3: the input-order/duplication invariance applied to concrete
reshuffled, duplicated inputs. -/
theorem c3_witness :
    (["b", "a", "a"] : List String).toFinset = (["a", "b"] : List String).toFinset ∧
    (["c", "b", "c"] : List String).toFinset = (["b", "c"] : List String).toFinset ∧
    ((∀ d, d ∈ (computeChanges ["b", "a", "a"] ["c", "b", "c"]).1 ↔
        d ∈ (computeChanges ["a", "b"] ["b", "c"]).1) ∧
     (∀ d, d ∈ (computeChanges ["b", "a", "a"] ["c", "b", "c"]).2 ↔
        d ∈ (computeChanges ["a", "b"] ["b", "c"]).2)) :=
  ⟨by decide, by decide,
    (c3_computeChanges_delta ["a", "b"] ["b", "c"]).2.2.2.2
      ["b", "a", "a"] ["c", "b", "c"] (by decide) (by decide)⟩

/-! ## Fake SCIM adapter List and mapping-store List (C9) -/

/-- `fakeAPIClient.List` (internal/sp/main.go): `make([]scim.User, len(store))`
followed by appends — the output starts with `len(store)` zero-valued users. -/
def fakeList (store : List (String × SCIMUser)) : List SCIMUser :=
  store.foldl (fun l kv => l ++ [kv.2]) (List.replicate store.length emptyUser)

theorem foldl_append_snd {α β : Type} (l : List (α × β)) (init : List β) :
    l.foldl (fun acc kv => acc ++ [kv.2]) init = init ++ l.map Prod.snd := by
  induction l generalizing init with
  | nil => simp
  | cons a l ih => simp [List.foldl_cons, ih]

/-- A record to populate the store with in the C9 counterexample. -/
def c9user : SCIMUser :=
  { emptyUser with id := "g1", userName := "u1" }

/-- C9 counterexample: the mapping store's `List` does *not* pre-allocate;
on a store holding exactly one record it returns just that record — length 1,
not 2, with no leading zero-valued user. -/
theorem c9_counterexample :
    usersList (usersAdd emptyStore "dn1" c9user) = [c9user] ∧
    (usersList (usersAdd emptyStore "dn1" c9user)).length = 1 ∧
    (usersAdd emptyStore "dn1" c9user).members.length = 1 := by
  refine ⟨?_, ?_, ?_⟩ <;> rfl

/-- C9 amended: only the fake SP adapter's `List` pre-allocates — its output
is `len(store)` zero-valued users followed by the stored records, so its
length is twice the number of stored records; the mapping store's `List`
starts from an empty slice and returns exactly the stored records. -/
theorem c9_amended_list_shapes (store : List (String × SCIMUser)) (s : Store) :
    fakeList store = List.replicate store.length emptyUser ++ store.map Prod.snd ∧
    (fakeList store).length = 2 * store.length ∧
    usersList s = s.members.map Prod.snd ∧
    (usersList s).length = s.members.length := by
  have h1 : fakeList store =
      List.replicate store.length emptyUser ++ store.map Prod.snd :=
    foldl_append_snd store _
  have h2 : usersList s = s.members.map Prod.snd := by
    simpa [usersList] using foldl_append_snd s.members []
  refine ⟨h1, ?_, h2, ?_⟩
  · simp [h1, two_mul]
  · simp [h2]

/-! ## Mapping-store operation sequences and invariant I1 (C5) -/

def keysOf {α : Type} (l : List (String × α)) : List String := l.map Prod.fst

theorem keysOf_bput {α : Type} (l : List (String × α)) (k : String) (v : α) :
    keysOf (bput l k v) =
      if k ∈ keysOf l then keysOf l else keysOf l ++ [k] := by
  induction l with
  | nil => simp [keysOf, bput]
  | cons hd tl ih =>
      obtain ⟨k1, v1⟩ := hd
      by_cases h1 : k1 = k
      · subst h1
        simp [keysOf, bput]
      · have hk : ¬ k = k1 := fun h => h1 h.symm
        simp only [keysOf, bput, if_neg h1, List.map_cons, List.mem_cons]
        simp only [keysOf] at ih
        by_cases h2 : k ∈ tl.map Prod.fst
        · simp [h2, hk, ih]
        · simp [h2, hk, ih]

theorem mem_keysOf_bput {α : Type} (l : List (String × α)) (k x : String) (v : α) :
    x ∈ keysOf (bput l k v) ↔ x ∈ keysOf l ∨ x = k := by
  rw [keysOf_bput]
  by_cases h : k ∈ keysOf l
  · simp only [if_pos h]
    constructor
    · exact Or.inl
    · rintro (hx | rfl) <;> [exact hx; exact h]
  · simp [if_neg h]

theorem nodup_keysOf_bput {α : Type} (l : List (String × α)) (k : String) (v : α)
    (h : (keysOf l).Nodup) : (keysOf (bput l k v)).Nodup := by
  rw [keysOf_bput]
  by_cases hk : k ∈ keysOf l
  · simpa [if_pos hk] using h
  · simp only [if_neg hk]
    simpa [List.nodup_append] using ⟨h, hk⟩

theorem keysOf_bdel {α : Type} (l : List (String × α)) (k : String) :
    keysOf (bdel l k) = (keysOf l).filter (fun x => x ≠ k) := by
  induction l with
  | nil => simp [keysOf, bdel]
  | cons hd tl ih =>
      obtain ⟨k1, v1⟩ := hd
      by_cases h1 : k1 = k
      · subst h1
        simp only [keysOf, bdel, List.filter_cons, ne_eq, decide_not] at ih ⊢
        simpa using ih
      · simp only [keysOf, bdel, List.filter_cons, ne_eq, decide_not] at ih ⊢
        simp [h1, ih]

theorem mem_keysOf_bdel {α : Type} (l : List (String × α)) (k x : String) :
    x ∈ keysOf (bdel l k) ↔ x ∈ keysOf l ∧ x ≠ k := by
  rw [keysOf_bdel]
  simp

theorem nodup_keysOf_bdel {α : Type} (l : List (String × α)) (k : String)
    (h : (keysOf l).Nodup) : (keysOf (bdel l k)).Nodup := by
  rw [keysOf_bdel]
  exact h.filter _

/-- A mapping-store mutation: `Users.Add(dn, user)` or `Users.Delete(user)`
(the latter identified by the record's DN and GUID fields). -/
inductive StoreOp
  | add (dn : String) (user : SCIMUser)
  | del (dn : String) (guid : String)
deriving Repr, DecidableEq

def applyOp (s : Store) : StoreOp → Store
  | StoreOp.add dn user => usersAdd s dn user
  | StoreOp.del dn guid => usersDelete s dn guid

def applyOps (s : Store) (ops : List StoreOp) : Store := ops.foldl applyOp s

/-- Precondition under which `Add(dn, user)` keeps the indices coherent:
neither the DN nor the GUID is currently bound to a *different* partner. -/
def addOK (s : Store) (dn : String) (user : SCIMUser) : Prop :=
  (bget s.dns dn = none ∨ bget s.dns dn = some user.id) ∧
  (bget s.guids user.id = none ∨ bget s.guids user.id = some dn)

/-- Precondition under which `Delete` keeps the indices coherent: the DN/GUID
pair is a current binding, or both are absent. -/
def delOK (s : Store) (dn guid : String) : Prop :=
  (bget s.dns dn = some guid ∧ bget s.guids guid = some dn) ∨
  (bget s.dns dn = none ∧ bget s.guids guid = none)

def opOK (s : Store) : StoreOp → Prop
  | StoreOp.add dn user => addOK s dn user
  | StoreOp.del dn guid => delOK s dn guid

def opsOK : Store → List StoreOp → Prop
  | _, [] => True
  | s, op :: rest => opOK s op ∧ opsOK (applyOp s op) rest

instance decAddOK (s : Store) (dn : String) (u : SCIMUser) : Decidable (addOK s dn u) :=
  inferInstanceAs (Decidable (_ ∧ _))

instance decDelOK (s : Store) (dn guid : String) : Decidable (delOK s dn guid) :=
  inferInstanceAs (Decidable (_ ∨ _))

instance decOpOK (s : Store) (op : StoreOp) : Decidable (opOK s op) := by
  cases op with
  | add dn user => exact inferInstanceAs (Decidable (addOK s dn user))
  | del dn guid => exact inferInstanceAs (Decidable (delOK s dn guid))

def decOpsOK : (s : Store) → (ops : List StoreOp) → Decidable (opsOK s ops)
  | _, [] => Decidable.isTrue trivial
  | s, op :: rest =>
      have : Decidable (opsOK (applyOp s op) rest) := decOpsOK _ rest
      inferInstanceAs (Decidable (_ ∧ _))

instance (s : Store) (ops : List StoreOp) : Decidable (opsOK s ops) := decOpsOK s ops

/-- A GUID appears in the indices when it is a key of `guids` or a value of `dns`. -/
def guidInIndices (s : Store) (guid : String) : Prop :=
  (∃ dn, bget s.guids guid = some dn) ∨ (∃ dn, bget s.dns dn = some guid)

/-- Invariant I1 of the spec: the two indices are mutually inverse, and the
`members` bucket has exactly one record for every GUID appearing in them. -/
def I1 (s : Store) : Prop :=
  (∀ dn guid, bget s.dns dn = some guid → bget s.guids guid = some dn) ∧
  (∀ guid dn, bget s.guids guid = some dn → bget s.dns dn = some guid) ∧
  (∀ guid, guidInIndices s guid → (keysOf s.members).count guid = 1)

/-- Strengthened induction invariant: bijectivity, membership of every indexed
GUID among the member keys, and uniqueness of the member keys. -/
def StoreAux (s : Store) : Prop :=
  (∀ dn guid, bget s.dns dn = some guid → bget s.guids guid = some dn) ∧
  (∀ guid dn, bget s.guids guid = some dn → bget s.dns dn = some guid) ∧
  (∀ guid, guidInIndices s guid → guid ∈ keysOf s.members) ∧
  (keysOf s.members).Nodup

theorem storeAux_empty : StoreAux emptyStore := by
  refine ⟨?_, ?_, ?_, ?_⟩
  · intro dn guid h
    simp [emptyStore, bget] at h
  · intro guid dn h
    simp [emptyStore, bget] at h
  · intro guid h
    rcases h with ⟨d, h⟩ | ⟨d, h⟩ <;> simp [emptyStore, bget] at h
  · simp [emptyStore, keysOf]

theorem storeAux_add (s : Store) (dn : String) (u : SCIMUser)
    (hok : addOK s dn u) (h : StoreAux s) : StoreAux (usersAdd s dn u) := by
  obtain ⟨h1, h2, h3, h4⟩ := h
  obtain ⟨hdn, hguid⟩ := hok
  refine ⟨?_, ?_, ?_, ?_⟩
  · intro dn2 g2 hg
    simp only [usersAdd, bget_bput] at hg ⊢
    by_cases hd : dn = dn2
    · subst hd
      simp only [if_pos rfl] at hg
      cases hg
      simp
    · rw [if_neg hd] at hg
      by_cases hu : u.id = g2
      · subst hu
        rcases hguid with hnone | hsome
        · exact absurd (h1 dn2 u.id hg) (by simp [hnone])
        · have := (h1 dn2 u.id hg).symm.trans hsome
          cases this
          exact absurd rfl hd
      · rw [if_neg hu]
        exact h1 dn2 g2 hg
  · intro g2 dn2 hg
    simp only [usersAdd, bget_bput] at hg ⊢
    by_cases hu : u.id = g2
    · subst hu
      simp only [if_pos rfl] at hg
      cases hg
      simp
    · rw [if_neg hu] at hg
      by_cases hd : dn = dn2
      · subst hd
        rcases hdn with hnone | hsome
        · exact absurd (h2 g2 dn hg) (by simp [hnone])
        · have := (h2 g2 dn hg).symm.trans hsome
          cases this
          exact absurd rfl hu
      · rw [if_neg hd]
        exact h2 g2 dn2 hg
  · intro g2 hgi
    simp only [usersAdd] at hgi ⊢
    rw [mem_keysOf_bput]
    rcases hgi with ⟨d, hgd⟩ | ⟨d, hdd⟩
    · rw [bget_bput] at hgd
      by_cases hu : u.id = g2
      · exact Or.inr hu.symm
      · rw [if_neg hu] at hgd
        exact Or.inl (h3 g2 (Or.inl ⟨d, hgd⟩))
    · rw [bget_bput] at hdd
      by_cases hd : dn = d
      · rw [if_pos hd] at hdd
        cases hdd
        exact Or.inr rfl
      · rw [if_neg hd] at hdd
        exact Or.inl (h3 g2 (Or.inr ⟨d, hdd⟩))
  · exact nodup_keysOf_bput _ _ _ h4

theorem storeAux_del (s : Store) (dn guid : String)
    (hok : delOK s dn guid) (h : StoreAux s) : StoreAux (usersDelete s dn guid) := by
  obtain ⟨h1, h2, h3, h4⟩ := h
  refine ⟨?_, ?_, ?_, ?_⟩
  · intro dn2 g2 hg
    simp only [usersDelete, bget_bdel] at hg ⊢
    by_cases hd : dn = dn2
    · rw [if_pos hd] at hg
      cases hg
    · rw [if_neg hd] at hg
      have hne : ¬ guid = g2 := by
        intro heq
        subst heq
        have hgg := h1 dn2 guid hg
        rcases hok with ⟨_, hb⟩ | ⟨_, hb⟩
        · have := hgg.symm.trans hb
          cases this
          exact hd rfl
        · simp [hb] at hgg
      rw [if_neg hne]
      exact h1 dn2 g2 hg
  · intro g2 dn2 hg
    simp only [usersDelete, bget_bdel] at hg ⊢
    by_cases hgeq : guid = g2
    · rw [if_pos hgeq] at hg
      cases hg
    · rw [if_neg hgeq] at hg
      have hne : ¬ dn = dn2 := by
        intro heq
        subst heq
        have hdd := h2 g2 dn hg
        rcases hok with ⟨hb, _⟩ | ⟨hb, _⟩
        · have := hdd.symm.trans hb
          cases this
          exact hgeq rfl
        · simp [hb] at hdd
      rw [if_neg hne]
      exact h2 g2 dn2 hg
  · intro g2 hgi
    simp only [usersDelete] at hgi ⊢
    rw [mem_keysOf_bdel]
    rcases hgi with ⟨d, hgd⟩ | ⟨d, hdd⟩
    · rw [bget_bdel] at hgd
      by_cases hgeq : guid = g2
      · rw [if_pos hgeq] at hgd
        cases hgd
      · rw [if_neg hgeq] at hgd
        exact ⟨h3 g2 (Or.inl ⟨d, hgd⟩), fun h => hgeq h.symm⟩
    · rw [bget_bdel] at hdd
      by_cases hd : dn = d
      · rw [if_pos hd] at hdd
        cases hdd
      · rw [if_neg hd] at hdd
        have hgeq : ¬ guid = g2 := by
          intro heq
          subst heq
          have hgg := h1 d guid hdd
          rcases hok with ⟨_, hb⟩ | ⟨_, hb⟩
          · have := hgg.symm.trans hb
            cases this
            exact hd rfl
          · simp [hb] at hgg
        exact ⟨h3 g2 (Or.inr ⟨d, hdd⟩), fun h => hgeq h.symm⟩
  · exact nodup_keysOf_bdel _ _ h4

theorem storeAux_applyOps (ops : List StoreOp) (s : Store)
    (h : StoreAux s) (hok : opsOK s ops) : StoreAux (applyOps s ops) := by
  induction ops generalizing s with
  | nil => simpa [applyOps] using h
  | cons op rest ih =>
      obtain ⟨hop, hrest⟩ := hok
      have hstep : StoreAux (applyOp s op) := by
        cases op with
        | add dn user => exact storeAux_add s dn user hop h
        | del dn guid => exact storeAux_del s dn guid hop h
      simpa [applyOps, List.foldl_cons] using ih (applyOp s op) hstep hrest

/-- Records used in the C5 counterexample: same DN added under two GUIDs. -/
def c5u1 : SCIMUser := { emptyUser with id := "g1" }

def c5u2 : SCIMUser := { emptyUser with id := "g2" }

/-- C5 counterexample: after `Add("dn1", id=g1)` then `Add("dn1", id=g2)` from
the empty store — a perfectly possible call sequence — the `guids` index still
maps `g1 ↦ dn1` while `dns` maps `dn1 ↦ g2`, so I1's bijectivity fails. -/
theorem c5_counterexample :
    ¬ I1 (applyOps emptyStore [StoreOp.add "dn1" c5u1, StoreOp.add "dn1" c5u2]) := by
  intro h
  have h2 := h.2.1 "g1" "dn1" (by decide)
  exact absurd h2 (by decide)

/-- C5 amended: I1 holds after any sequence of `Add`/`Delete` from the empty
prepared store in which every `Add(dn, user)` uses a DN and a GUID neither of
which is currently bound to a different partner, and every `Delete` names a
DN/GUID pair that is either a current binding or entirely absent. -/
theorem c5_amended_I1 (ops : List StoreOp) (hok : opsOK emptyStore ops) :
    I1 (applyOps emptyStore ops) := by
  have haux := storeAux_applyOps ops emptyStore storeAux_empty hok
  obtain ⟨h1, h2, h3, h4⟩ := haux
  refine ⟨h1, h2, ?_⟩
  intro guid hgi
  exact List.count_eq_one_of_mem h4 (h3 guid hgi)

/-- Witness for C5: a well-formed add/delete sequence satisfying the
precondition, for which I1 holds at the end. -/
theorem c5_witness :
    opsOK emptyStore [StoreOp.add "dn1" c5u1, StoreOp.del "dn1" "g1"] ∧
    I1 (applyOps emptyStore [StoreOp.add "dn1" c5u1, StoreOp.del "dn1" "g1"]) :=
  ⟨by decide, c5_amended_I1 _ (by decide)⟩

/-! ## SHA-256 and standard base64 (crypto/sha256, encoding/base64)

The fake SCIM adapter derives GUIDs as
`base64.StdEncoding.EncodeToString(sha256.Sum(userName))`; both library
functions are embedded byte-for-byte over `List Nat` (bytes) with 32-bit
words as `Nat` reduced mod 2^32. -/

def w32 (n : Nat) : Nat := n % 4294967296

def rotr32 (x n : Nat) : Nat := w32 ((x >>> n) ||| (x <<< (32 - n)))

/-- Bounded binary search for the integer cube root. -/
def cbrtGo (n : Nat) : Nat → Nat → Nat → Nat
  | 0, lo, _ => lo
  | fuel + 1, lo, hi =>
      if lo + 1 ≥ hi then lo
      else
        let mid := (lo + hi) / 2
        if mid * mid * mid ≤ n then cbrtGo n fuel mid hi else cbrtGo n fuel lo mid

def natCbrt (n : Nat) : Nat := cbrtGo n 200 0 (n + 1)

def isPrimeB (n : Nat) : Bool :=
  2 ≤ n && ((List.range (n - 2)).all (fun i => n % (i + 2) != 0))

/-- The first `count` primes (the 64th prime is 311 < 400). -/
def firstPrimes (count : Nat) : List Nat :=
  ((List.range 400).filter isPrimeB).take count

/-- The 64 SHA-256 round constants: per FIPS 180-4, the first 32 bits of the
fractional parts of the cube roots of the first 64 primes, computed here as
`⌊∛(p·2^96)⌋ mod 2^32` (so `k256[0] = 0x428a2f98`, …, `k256[63] = 0xc67178f2`). -/
def k256 : List Nat :=
  (firstPrimes 64).map (fun p => natCbrt (p <<< 96) % 4294967296)

/-- The eight SHA-256 initial hash values: the first 32 bits of the fractional
parts of the square roots of the first 8 primes, `⌊√(p·2^64)⌋ mod 2^32`
(so `h256[0] = 0x6a09e667`, …, `h256[7] = 0x5be0cd19`). -/
def h256 : List Nat :=
  (firstPrimes 8).map (fun p => Nat.sqrt (p <<< 64) % 4294967296)

def beBytes8 (n : Nat) : List Nat :=
  [(n >>> 56) % 256, (n >>> 48) % 256, (n >>> 40) % 256, (n >>> 32) % 256,
   (n >>> 24) % 256, (n >>> 16) % 256, (n >>> 8) % 256, n % 256]

def sha256pad (msg : List Nat) : List Nat :=
  let z := (119 - msg.length % 64) % 64
  msg ++ [0x80] ++ List.replicate z 0 ++ beBytes8 (msg.length * 8)

def beWords : List Nat → List Nat
  | b0 :: b1 :: b2 :: b3 :: rest =>
      (((b0 * 256 + b1) * 256 + b2) * 256 + b3) :: beWords rest
  | _ => []

def chunks64 (l : List Nat) : List (List Nat) :=
  if _h : l.length = 0 then []
  else l.take 64 :: chunks64 (l.drop 64)
termination_by l.length
decreasing_by
  simp only [List.length_drop]
  omega

def extendSchedule : Nat → List Nat → List Nat
  | 0, ws => ws
  | n + 1, ws =>
      let i := ws.length
      let w16 := ws.getD (i - 16) 0
      let w15 := ws.getD (i - 15) 0
      let w7 := ws.getD (i - 7) 0
      let w2 := ws.getD (i - 2) 0
      let s0 := rotr32 w15 7 ^^^ rotr32 w15 18 ^^^ (w15 >>> 3)
      let s1 := rotr32 w2 17 ^^^ rotr32 w2 19 ^^^ (w2 >>> 10)
      extendSchedule n (ws ++ [w32 (w16 + s0 + w7 + s1)])

/-- The eight 32-bit working variables of the compression loop. -/
structure H8 where
  a : Nat
  b : Nat
  c : Nat
  d : Nat
  e : Nat
  f : Nat
  g : Nat
  h : Nat

def roundStep (st : H8) (kw : Nat × Nat) : H8 :=
  let S1 := rotr32 st.e 6 ^^^ rotr32 st.e 11 ^^^ rotr32 st.e 25
  let ch := (st.e &&& st.f) ^^^ ((st.e ^^^ 0xffffffff) &&& st.g)
  let temp1 := w32 (st.h + S1 + ch + kw.1 + kw.2)
  let S0 := rotr32 st.a 2 ^^^ rotr32 st.a 13 ^^^ rotr32 st.a 22
  let maj := (st.a &&& st.b) ^^^ (st.a &&& st.c) ^^^ (st.b &&& st.c)
  let temp2 := w32 (S0 + maj)
  { a := w32 (temp1 + temp2), b := st.a, c := st.b, d := st.c,
    e := w32 (st.d + temp1), f := st.e, g := st.f, h := st.g }

def compressChunk (hs : List Nat) (chunk : List Nat) : List Nat :=
  let ws := extendSchedule 48 (beWords chunk)
  let st0 : H8 :=
    { a := hs.getD 0 0, b := hs.getD 1 0, c := hs.getD 2 0, d := hs.getD 3 0,
      e := hs.getD 4 0, f := hs.getD 5 0, g := hs.getD 6 0, h := hs.getD 7 0 }
  let st := (k256.zip ws).foldl roundStep st0
  [w32 (hs.getD 0 0 + st.a), w32 (hs.getD 1 0 + st.b),
   w32 (hs.getD 2 0 + st.c), w32 (hs.getD 3 0 + st.d),
   w32 (hs.getD 4 0 + st.e), w32 (hs.getD 5 0 + st.f),
   w32 (hs.getD 6 0 + st.g), w32 (hs.getD 7 0 + st.h)]

def sha256Bytes (msg : List Nat) : List Nat :=
  let hs := (chunks64 (sha256pad msg)).foldl compressChunk h256
  hs.foldl
    (fun acc h => acc ++ [(h >>> 24) % 256, (h >>> 16) % 256, (h >>> 8) % 256, h % 256])
    []

def b64Chars : List Char :=
  "ABCDEFGHIJKLMNOPQRSTUVWXYZabcdefghijklmnopqrstuvwxyz0123456789+/".toList

def b64c (n : Nat) : Char := b64Chars.getD n '?'

def base64Encode : List Nat → String
  | b0 :: b1 :: b2 :: rest =>
      let n := (b0 * 256 + b1) * 256 + b2
      String.mk [b64c (n >>> 18), b64c ((n >>> 12) % 64),
                 b64c ((n >>> 6) % 64), b64c (n % 64)] ++ base64Encode rest
  | [b0, b1] =>
      let n := (b0 * 256 + b1) * 256
      String.mk [b64c (n >>> 18), b64c ((n >>> 12) % 64), b64c ((n >>> 6) % 64), '=']
  | [b0] =>
      let n := b0 * 256 * 256
      String.mk [b64c (n >>> 18), b64c ((n >>> 12) % 64), '=', '=']
  | [] => ""

def utf8Bytes (s : String) : List Nat :=
  s.toUTF8.toList.map (fun b => b.toNat)

/-! ## Fake SCIM adapter (internal/sp/main.go, fakeAPIClient) -/

/-- The GUID the fake adapter derives: `base64(sha256(userName))`. -/
def fakeGuid (userName : String) : String :=
  base64Encode (sha256Bytes (utf8Bytes userName))

/-- `fakeAPIClient.Add`: derives the GUID from `userName` alone, stores the
record (with `ID` set) under that GUID, and returns the GUID. -/
def fakeAdd (store : List (String × SCIMUser)) (u : SCIMUser) :
    List (String × SCIMUser) × String :=
  let guid := fakeGuid u.userName
  (bput store guid { u with id := guid }, guid)

/-- `fakeAPIClient.Del`: removes the GUID's entry; never fails. -/
def fakeDel (store : List (String × SCIMUser)) (guid : String) :
    List (String × SCIMUser) :=
  bdel store guid

/-! ### C8 -/

/-- C8: the fake adapter's `Add` is deterministic in `userName`: the returned
GUID is `base64(sha256(userName))`, so two adds with the same `userName` —
whatever their other fields — return the same GUID, and after both adds the
store holds exactly one entry under that GUID. -/
theorem c8_fakeAdd_deterministic (s : List (String × SCIMUser)) (u1 u2 : SCIMUser)
    (hnodup : (keysOf s).Nodup) (hu : u1.userName = u2.userName) :
    (fakeAdd s u1).2 = base64Encode (sha256Bytes (utf8Bytes u1.userName)) ∧
    (fakeAdd s u1).2 = (fakeAdd s u2).2 ∧
    (keysOf (fakeAdd (fakeAdd s u1).1 u2).1).count (fakeAdd s u1).2 = 1 := by
  refine ⟨rfl, by simp [fakeAdd, fakeGuid, hu], ?_⟩
  have hkey : (fakeAdd s u2).2 = (fakeAdd s u1).2 := by
    simp [fakeAdd, fakeGuid, hu]
  have hmem : (fakeAdd s u1).2 ∈ keysOf (fakeAdd (fakeAdd s u1).1 u2).1 := by
    simp only [fakeAdd, fakeGuid, hu]
    rw [mem_keysOf_bput]
    exact Or.inr rfl
  have hnd : (keysOf (fakeAdd (fakeAdd s u1).1 u2).1).Nodup := by
    simp only [fakeAdd]
    exact nodup_keysOf_bput _ _ _ (nodup_keysOf_bput _ _ _ hnodup)
  exact List.count_eq_one_of_mem hnd hmem

/-- Two records agreeing on `userName` and nothing else, for the C8 witness. -/
def c8u1 : SCIMUser :=
  { schemas := [userSchema], id := "", externalId := "x1", userName := "mtodd"
    name := { givenName := "Matt", familyName := "Todd" }, emails := [], active := true }

def c8u2 : SCIMUser :=
  { schemas := [], id := "old", externalId := "x2", userName := "mtodd"
    name := { givenName := "M", familyName := "T" }, emails := [], active := false }

/-- Witness for C8 on the empty fake store and two records that share only
their `userName`. -/
theorem c8_witness :
    (keysOf ([] : List (String × SCIMUser))).Nodup ∧ c8u1.userName = c8u2.userName ∧
    ((fakeAdd [] c8u1).2 = base64Encode (sha256Bytes (utf8Bytes c8u1.userName)) ∧
     (fakeAdd [] c8u1).2 = (fakeAdd [] c8u2).2 ∧
     (keysOf (fakeAdd (fakeAdd [] c8u1).1 c8u2).1).count (fakeAdd [] c8u1).2 = 1) :=
  ⟨List.nodup_nil, rfl, c8_fakeAdd_deterministic [] c8u1 c8u2 List.nodup_nil rfl⟩

/-! ## Bridge environment and event-loop operations (ldap-bridged main)

The bridge (`part_001` of the daemon sources) talks to the IdP and the SP
through the adapter surfaces.  The external responses are an environment;
the bridge-visible state is the mapping store, the fake adapter's in-memory
store (used when `dryRun` selects the fake), and the trace of SP mutation
calls issued. -/

inductive SPCall
  | add (user : SCIMUser)
  | del (guid : String)
deriving Repr, DecidableEq

structure BState where
  store : Store
  fakeSP : List (String × SCIMUser)
  spCalls : List SPCall
deriving Repr, DecidableEq

structure Env where
  dryRun : Bool
  spListRes : Except String (List SCIMUser)
  spAddRes : SCIMUser → Except String String
  spDelRes : String → Option String
  idpSearch : Except String SearchResult
  idpFetch : String → Except String Entry
  idpFetchUID : String → Except String (List Entry)

/-- `SCIMProvider.Add`: records the call; the fake derives the GUID and
stores the record, the live client's answer comes from the environment. -/
def spAddOp (env : Env) (st : BState) (u : SCIMUser) :
    BState × Except String String :=
  let st2 := { st with spCalls := st.spCalls ++ [SPCall.add u] }
  if env.dryRun then
    let res := fakeAdd st2.fakeSP u
    ({ st2 with fakeSP := res.1 }, Except.ok res.2)
  else
    (st2, env.spAddRes u)

/-- `SCIMProvider.Del`: records the call; the fake delete never fails. -/
def spDelOp (env : Env) (st : BState) (guid : String) :
    BState × Option String :=
  let st2 := { st with spCalls := st.spCalls ++ [SPCall.del guid] }
  if env.dryRun then
    ({ st2 with fakeSP := fakeDel st2.fakeSP guid }, none)
  else
    (st2, env.spDelRes guid)

/-- `SCIMProvider.List`. -/
def spListOp (env : Env) (st : BState) : Except String (List SCIMUser) :=
  if env.dryRun then Except.ok (fakeList st.fakeSP) else env.spListRes

/-- `bridge.mapEntry`: projects an LDAP entry to a SCIM user record. -/
def mapEntry (entry : Entry) : SCIMUser :=
  { schemas := [userSchema], id := "", externalId := ""
    userName := entry.uid
    name := { givenName := entry.givenName, familyName := entry.sn }
    emails := [{ type := "work", value := entry.mail, primary := true }]
    active := true }

/-- Modelled from the spec: the bridge's `Del` calls `b.users.Del(guid, dn)`,
whose definition is not among the sources (the store sources define
`Users.Delete`); per the spec's mapping-store contract, `Delete(dn, guid)`
removes all three entries — `members[guid]`, `guids[guid]`, `dns[dn]` —
atomically, which coincides with `Users.Delete` on a record carrying that
DN and GUID. -/
def usersDel (s : Store) (guid dn : String) : Store :=
  usersDelete s dn guid

/-- `bridge.Add(dn)`: fetch the IdP entry (abort on failure), project it,
`SP.Add` it (abort on failure), set the returned GUID, persist the binding. -/
def bridgeAdd (env : Env) (dn : String) (st : BState) : BState :=
  match env.idpFetch dn with
  | Except.error _ => st
  | Except.ok entry =>
      let user := mapEntry entry
      match spAddOp env st user with
      | (st2, Except.error _) => st2
      | (st2, Except.ok guid) =>
          { st2 with store := usersAdd st2.store dn { user with id := guid } }

/-- `bridge.Del(dn)`: look the GUID up, call `SP.Del(guid)` (stop on
failure), then remove the binding from the store.  There is no check that
the looked-up GUID is non-empty. -/
def bridgeDel (env : Env) (dn : String) (st : BState) : BState :=
  let guid := getGUID st.store dn
  match spDelOp env st guid with
  | (st2, some _) => st2
  | (st2, none) => { st2 with store := usersDel st2.store guid dn }

/-! ### C2 -/

/-- A dry-run environment whose IdP is unreachable; only the fake SP answers. -/
def dryEnv : Env :=
  { dryRun := true
    spListRes := Except.ok []
    spAddRes := fun _ => Except.ok ""
    spDelRes := fun _ => none
    idpSearch := Except.ok { entries := [] }
    idpFetch := fun _ => Except.error "unreachable"
    idpFetchUID := fun _ => Except.error "unreachable" }

/-- C2 counterexample: with `dn1` unbound (the looked-up GUID is empty),
`Del(dn1)` does *not* stop before the SP — it issues `SP.Delete("")`.  The
claimed guard on an empty GUID does not exist in the code. -/
theorem c2_counterexample :
    getGUID emptyStore "dn1" = "" ∧
    (bridgeDel dryEnv "dn1" { store := emptyStore, fakeSP := [], spCalls := [] }).spCalls
      = [SPCall.del ""] := by
  exact ⟨rfl, rfl⟩

/-- C2 amended: `Del(dn)` looks up `guid := M.GetGUID(dn)` and calls
`SP.Delete(guid)` unconditionally — also when `guid` is empty; only if the
SP delete succeeds does it remove the binding (on SP failure the store is
untouched).  Scenario 2 still holds: from a state binding `dn ↔ u.id` with
`u` on the (fake) SP, `Del(dn)` empties the SP list and clears both index
entries. -/
theorem c2_amended_del :
    (∀ env st dn,
      (bridgeDel env dn st).spCalls = st.spCalls ++ [SPCall.del (getGUID st.store dn)]) ∧
    (∀ env st dn e, env.dryRun = false →
      env.spDelRes (getGUID st.store dn) = some e →
      (bridgeDel env dn st).store = st.store) ∧
    (∀ env dn u, env.dryRun = true →
      (bridgeDel env dn
          { store := usersAdd emptyStore dn u, fakeSP := [(u.id, u)], spCalls := [] }).fakeSP
        = [] ∧
      fakeList (bridgeDel env dn
          { store := usersAdd emptyStore dn u, fakeSP := [(u.id, u)], spCalls := [] }).fakeSP
        = [] ∧
      getGUID (bridgeDel env dn
          { store := usersAdd emptyStore dn u, fakeSP := [(u.id, u)], spCalls := [] }).store dn
        = "" ∧
      getDN (bridgeDel env dn
          { store := usersAdd emptyStore dn u, fakeSP := [(u.id, u)], spCalls := [] }).store u.id
        = "") := by
  refine ⟨?_, ?_, ?_⟩
  · intro env st dn
    by_cases hdry : env.dryRun
    · simp [bridgeDel, spDelOp, hdry]
    · simp only [bridgeDel, spDelOp, if_neg hdry]
      cases henv : env.spDelRes (getGUID st.store dn) <;> simp
  · intro env st dn e hdry herr
    simp [bridgeDel, spDelOp, hdry, herr]
  · intro env dn u hdry
    have hg : getGUID (usersAdd emptyStore dn u) dn = u.id := by
      simp [getGUID, usersAdd, emptyStore, bget_bput]
    have hfake : fakeDel [(u.id, u)] u.id = [] := by
      simp [fakeDel, bdel, List.filter_cons]
    refine ⟨?_, ?_, ?_, ?_⟩ <;>
      simp [bridgeDel, spDelOp, hdry, hg, hfake, fakeList, usersDel, usersDelete,
        getGUID, getDN, usersAdd, emptyStore, bget_bdel, bget_bput]

/-- A live environment whose SP delete always fails with a 503. -/
def c2envDelErr : Env :=
  { dryRun := false
    spListRes := Except.ok []
    spAddRes := fun _ => Except.ok ""
    spDelRes := fun _ => some "503"
    idpSearch := Except.ok { entries := [] }
    idpFetch := fun _ => Except.error "unreachable"
    idpFetchUID := fun _ => Except.error "unreachable" }

def c2user : SCIMUser := { emptyUser with id := "guid1", userName := "u1" }

def c2st : BState :=
  { store := usersAdd emptyStore "dn1" c2user
    fakeSP := [(c2user.id, c2user)], spCalls := [] }

/-- Witness for C2's amended statement: the SP-failure branch at a concrete
live environment, plus the dry-run scenario at concrete values. -/
theorem c2_witness :
    (c2envDelErr.dryRun = false ∧
     c2envDelErr.spDelRes (getGUID c2st.store "dn1") = some "503" ∧
     (bridgeDel c2envDelErr "dn1" c2st).store = c2st.store) ∧
    (dryEnv.dryRun = true ∧
     (bridgeDel dryEnv "dn1" c2st).fakeSP = [] ∧
     getGUID (bridgeDel dryEnv "dn1" c2st).store "dn1" = "" ∧
     getDN (bridgeDel dryEnv "dn1" c2st).store c2user.id = "") :=
  ⟨⟨rfl, rfl, c2_amended_del.2.1 c2envDelErr c2st "dn1" "503" rfl rfl⟩,
   ⟨rfl,
    (c2_amended_del.2.2 dryEnv "dn1" c2user rfl).1,
    (c2_amended_del.2.2 dryEnv "dn1" c2user rfl).2.2.1,
    (c2_amended_del.2.2 dryEnv "dn1" c2user rfl).2.2.2⟩⟩

/-! ### C4 -/

/-- C4: `Add(dn)` aborts without any SP or store mutation when the IdP fetch
fails, and aborts without touching the mapping store when `SP.Add` fails
(only the attempted SP call is recorded). -/
theorem c4_add_aborts :
    (∀ env dn st e, env.idpFetch dn = Except.error e → bridgeAdd env dn st = st) ∧
    (∀ env dn st entry e, env.idpFetch dn = Except.ok entry → env.dryRun = false →
      env.spAddRes (mapEntry entry) = Except.error e →
      bridgeAdd env dn st
        = { st with spCalls := st.spCalls ++ [SPCall.add (mapEntry entry)] }) := by
  constructor
  · intro env dn st e h
    simp [bridgeAdd, h]
  · intro env dn st entry e hf hdry herr
    simp [bridgeAdd, hf, spAddOp, hdry, herr]

def c4envFetchErr : Env :=
  { dryRun := false
    spListRes := Except.ok []
    spAddRes := fun _ => Except.ok "g"
    spDelRes := fun _ => none
    idpSearch := Except.ok { entries := [] }
    idpFetch := fun _ => Except.error "down"
    idpFetchUID := fun _ => Except.ok [] }

def c4entry : Entry :=
  { dn := "dn1", uid := "u1", cn := "U One", sn := "One", givenName := "U"
    mail := "u1@example.com", modifyTimestamp := "20240101000000Z", member := [] }

def c4envAddErr : Env :=
  { c4envFetchErr with
    idpFetch := fun _ => Except.ok c4entry
    spAddRes := fun _ => Except.error "500" }

def c4st : BState := { store := emptyStore, fakeSP := [], spCalls := [] }

/-- Witness for C4 at concrete failing environments. -/
theorem c4_witness :
    (c4envFetchErr.idpFetch "dn1" = Except.error "down" ∧
     bridgeAdd c4envFetchErr "dn1" c4st = c4st) ∧
    (c4envAddErr.idpFetch "dn1" = Except.ok c4entry ∧ c4envAddErr.dryRun = false ∧
     c4envAddErr.spAddRes (mapEntry c4entry) = Except.error "500" ∧
     bridgeAdd c4envAddErr "dn1" c4st
       = { c4st with spCalls := c4st.spCalls ++ [SPCall.add (mapEntry c4entry)] }) :=
  ⟨⟨rfl, c4_add_aborts.1 c4envFetchErr "dn1" c4st "down" rfl⟩,
   ⟨rfl, rfl, rfl, c4_add_aborts.2 c4envAddErr "dn1" c4st c4entry "500" rfl rfl rfl⟩⟩

/-! ## Startup three-way sync (bridge.Sync) -/

/-- `isMember(list, candidate)` from the bridge main: linear scan with `==`. -/
def isMember (list : List String) (candidate : String) : Bool :=
  list.any (fun v => v == candidate)

/-- Outcome of the first Sync loop: continue with the threaded state and the
`spDns` slice, return an error, or hit a Go index-out-of-range crash
(`idpRes[0]` on an empty `FetchUID` result). -/
inductive SyncStep
  | cont (st : BState) (spDns : List String)
  | fail (e : String)
  | crashed
deriving Repr, DecidableEq

/-- Outcome of `Sync`: `ok`, an error return, or a crash (`Entries[0]` /
`idpRes[0]` on an empty slice). -/
inductive SyncRes
  | ok (st : BState)
  | fail (e : String)
  | crashed
deriving Repr, DecidableEq

/-- First Sync loop: update the bridge store to reflect what is on the SP.
An unknown GUID is resolved through `FetchUID` and recorded; a known DN no
longer in the group is deleted via `bridge.Del`; a valid binding is appended
to `spDns` (which was pre-allocated with `len(spList)` empty strings). -/
def syncSPLoop (env : Env) (memberDns : List String) :
    List SCIMUser → BState → List String → SyncStep
  | [], st, spDns => SyncStep.cont st spDns
  | spUser :: rest, st, spDns =>
      let dn := getDN st.store spUser.id
      if dn = "" then
        match env.idpFetchUID spUser.userName with
        | Except.error e => SyncStep.fail e
        | Except.ok entries =>
            match entries.head? with
            | none => SyncStep.crashed
            | some idpUser =>
                syncSPLoop env memberDns rest
                  { st with store := usersAdd st.store idpUser.dn spUser } spDns
      else if ! isMember memberDns dn then
        syncSPLoop env memberDns rest (bridgeDel env dn st) spDns
      else
        syncSPLoop env memberDns rest st (spDns ++ [dn])

/-- Second Sync loop: update the SP with what is in the IdP group.  An
unknown DN goes through the full `bridge.Add`; a known DN missing from
`spDns` is re-materialized with a bare `SP.Add` whose result is discarded. -/
def syncIdPLoop (env : Env) (spDns : List String) :
    List String → BState → SyncRes
  | [], st => SyncRes.ok st
  | memberDn :: rest, st =>
      let guid := getGUID st.store memberDn
      if guid = "" then
        syncIdPLoop env spDns rest (bridgeAdd env memberDn st)
      else if ! isMember spDns memberDn then
        match env.idpFetch memberDn with
        | Except.error e => SyncRes.fail e
        | Except.ok entry =>
            syncIdPLoop env spDns rest (spAddOp env st (mapEntry entry)).1
      else
        syncIdPLoop env spDns rest st

/-- `bridge.Sync`: list the SP, search the IdP for the group (`Entries[0]`;
the source's `group == nil` test can never fire), read the `member` values,
then run the two reconciliation loops.  `spDns` starts as
`make([]string, len(spList))` — `len(spList)` empty strings. -/
def bridgeSync (env : Env) (st : BState) : SyncRes :=
  match spListOp env st with
  | Except.error e => SyncRes.fail e
  | Except.ok spList =>
      let spDns0 := List.replicate spList.length ""
      match env.idpSearch with
      | Except.error e => SyncRes.fail e
      | Except.ok res =>
          match res.entries.head? with
          | none => SyncRes.crashed
          | some group =>
              match syncSPLoop env group.member spList st spDns0 with
              | SyncStep.fail e => SyncRes.fail e
              | SyncStep.crashed => SyncRes.crashed
              | SyncStep.cont st2 spDns => syncIdPLoop env spDns group.member st2

/-! ### C1 -/

def c1user : SCIMUser := { emptyUser with id := "g1", userName := "u1" }

def c1entry : Entry :=
  { dn := "dn1", uid := "u1", cn := "u1", sn := "One", givenName := "U"
    mail := "u1@example.com", modifyTimestamp := "t0", member := [] }

def c1group : Entry :=
  { dn := "cn=grp,ou=people", uid := "", cn := "grp", sn := "", givenName := ""
    mail := "", modifyTimestamp := "t0", member := ["dn1"] }

def c1env : Env :=
  { dryRun := false
    spListRes := Except.ok [c1user]
    spAddRes := fun _ => Except.ok "gNew"
    spDelRes := fun _ => none
    idpSearch := Except.ok { entries := [c1group] }
    idpFetch := fun _ => Except.ok c1entry
    idpFetchUID := fun _ => Except.ok [c1entry] }

def c1st0 : BState := { store := emptyStore, fakeSP := [], spCalls := [] }

/-- C1 counterexample: in exactly the claimed scenario (`G = {dn1}`,
`S = {user1: id=g1, userName=u1}`, `M` empty, IdP entry `dn1/u1`), `Sync`
records the `dn1 ↔ g1` binding but then *does* issue an `SP.Add` — the
first loop's unknown-GUID branch never appends `dn1` to `spDns`, so the
second loop re-materializes the user.  The claimed "no SP mutation" is
false. -/
theorem c1_counterexample :
    bridgeSync c1env c1st0
      = SyncRes.ok
          { store := usersAdd emptyStore "dn1" c1user
            fakeSP := []
            spCalls := [SPCall.add (mapEntry c1entry)] } ∧
    SPCall.add (mapEntry c1entry) ∈
      [SPCall.add (mapEntry c1entry)] := by
  exact ⟨rfl, List.mem_singleton_self _⟩

/-- C1 amended: in the SP-ahead startup scenario the mapping store ends up
binding `dn1 ↔ g1` and no `SP.Del` is issued, but exactly one `SP.Add` is
issued — the re-materialization of the projected IdP entry — because the
unknown-GUID branch records the binding without marking the DN as already
on the SP. -/
theorem c1_amended_sync_sp_ahead
    (env : Env) (dn1 g1 u1 : String) (user1 : SCIMUser) (entry1 groupEntry : Entry)
    (hdn : dn1 ≠ "") (hg : g1 ≠ "")
    (hid : user1.id = g1) (hun : user1.userName = u1)
    (hedn : entry1.dn = dn1) (hgm : groupEntry.member = [dn1])
    (hdry : env.dryRun = false)
    (hlist : env.spListRes = Except.ok [user1])
    (hsearch : env.idpSearch = Except.ok { entries := [groupEntry] })
    (hfuid : env.idpFetchUID u1 = Except.ok [entry1])
    (hfetch : env.idpFetch dn1 = Except.ok entry1) :
    ∃ st2,
      bridgeSync env { store := emptyStore, fakeSP := [], spCalls := [] }
        = SyncRes.ok st2 ∧
      bget st2.store.dns dn1 = some g1 ∧
      bget st2.store.guids g1 = some dn1 ∧
      st2.spCalls = [SPCall.add (mapEntry entry1)] := by
  refine ⟨{ store := usersAdd emptyStore entry1.dn user1
            fakeSP := []
            spCalls := [SPCall.add (mapEntry entry1)] }, ?_, ?_, ?_, rfl⟩
  · have hdn0 : getDN emptyStore user1.id = "" := rfl
    have hguid : getGUID (usersAdd emptyStore entry1.dn user1) dn1 = g1 := by
      rw [hedn]
      simp [getGUID, usersAdd, emptyStore, bget_bput, hid]
    have hmem : isMember [""] dn1 = false := by
      simp [isMember, show ¬ ("" : String) = dn1 from fun h => hdn h.symm]
    simp only [bridgeSync, spListOp, hdry, Bool.false_eq_true, if_false, hlist, hsearch,
      List.length_cons, List.length_nil, List.replicate, List.head?_cons, hgm]
    simp only [syncSPLoop, hdn0, if_pos rfl, hun, hfuid, List.head?_cons]
    simp only [syncIdPLoop, hguid, hg, if_neg hg, hmem, Bool.not_false, if_pos rfl,
      hfetch, spAddOp, hdry, Bool.false_eq_true, if_false, List.nil_append]
    simp [hguid, hg, hmem]
  · rw [hedn]
    simp [usersAdd, emptyStore, bget_bput, hid]
  · rw [hedn]
    simp [usersAdd, emptyStore, bget_bput, hid]

/-- Witness for C1's amended statement at the concrete scenario values. -/
theorem c1_witness :
    (("dn1" : String) ≠ "" ∧ ("g1" : String) ≠ "" ∧
     c1user.id = "g1" ∧ c1user.userName = "u1" ∧
     c1entry.dn = "dn1" ∧ c1group.member = ["dn1"] ∧
     c1env.dryRun = false ∧ c1env.spListRes = Except.ok [c1user] ∧
     c1env.idpSearch = Except.ok { entries := [c1group] } ∧
     c1env.idpFetchUID "u1" = Except.ok [c1entry] ∧
     c1env.idpFetch "dn1" = Except.ok c1entry) ∧
    (∃ st2,
      bridgeSync c1env { store := emptyStore, fakeSP := [], spCalls := [] }
        = SyncRes.ok st2 ∧
      bget st2.store.dns "dn1" = some "g1" ∧
      bget st2.store.guids "g1" = some "dn1" ∧
      st2.spCalls = [SPCall.add (mapEntry c1entry)]) :=
  ⟨⟨by decide, by decide, rfl, rfl, rfl, rfl, rfl, rfl, rfl, rfl, rfl⟩,
   c1_amended_sync_sp_ahead c1env "dn1" "g1" "u1" c1user c1entry c1group
     (by decide) (by decide) rfl rfl rfl rfl rfl rfl rfl rfl rfl⟩

/-! ## Membership checker (internal/idp/main.go, groupMembershipChecker.Check)

The checker state is the previously seen search result (`nil` before the
baseline).  `Check` receives the fresh result and the transport error; it
returns the new state and the events published on the internal channel, or
`none` for the Go panic (`Entries[0]` on an empty slice). -/

structure ChkEvent where
  before : Entry
  after : Entry
deriving Repr, DecidableEq

def checkerCheck (prev : Option SearchResult) (r : SearchResult)
    (err : Option String) : Option (Option SearchResult × List ChkEvent) :=
  match err with
  | some _ => some (prev, [])
  | none =>
      match prev with
      | none => some (some r, [])
      | some p =>
          if p.entries.length ≠ r.entries.length then
            some (some r, [])
          else
            match p.entries.head?, r.entries.head? with
            | some pe, some nx =>
                if pe.modifyTimestamp ≠ nx.modifyTimestamp then
                  some (some r, [{ before := pe, after := nx }])
                else
                  some (some p, [])
            | _, _ => none

/-! ### C6 -/

/-- C6: once a baseline is held, `Check` on a new result behaves as the
specified state machine: differing entry counts replace the stored result
silently; equal first-entry `modifyTimestamp`s change nothing; otherwise
exactly one event carrying the previous and new first entries is emitted and
the stored result is replaced. -/
theorem c6_checker_state_machine (p r : SearchResult) :
    (p.entries.length ≠ r.entries.length →
      checkerCheck (some p) r none = some (some r, [])) ∧
    (∀ pe nx, p.entries.length = r.entries.length →
      p.entries.head? = some pe → r.entries.head? = some nx →
      ((pe.modifyTimestamp = nx.modifyTimestamp →
         checkerCheck (some p) r none = some (some p, [])) ∧
       (pe.modifyTimestamp ≠ nx.modifyTimestamp →
         checkerCheck (some p) r none
           = some (some r, [{ before := pe, after := nx }])))) := by
  constructor
  · intro hne
    simp [checkerCheck, hne]
  · intro pe nx hlen hp hr
    constructor
    · intro hts
      simp [checkerCheck, hlen, hp, hr, hts]
    · intro hts
      simp [checkerCheck, hlen, hp, hr, hts]

def c6p1 : Entry :=
  { dn := "cn=grp", uid := "", cn := "grp", sn := "", givenName := "", mail := ""
    modifyTimestamp := "t1", member := ["dn1"] }

def c6p2 : Entry :=
  { dn := "cn=grp", uid := "", cn := "grp", sn := "", givenName := "", mail := ""
    modifyTimestamp := "t2", member := ["dn1", "dn2"] }

/-- Witness for C6: same entry count, changed `modifyTimestamp` — one event
carrying both first entries is emitted and the state moves to the new
result. -/
theorem c6_witness :
    ((SearchResult.mk [c6p1]).entries.length = (SearchResult.mk [c6p2]).entries.length ∧
     (SearchResult.mk [c6p1]).entries.head? = some c6p1 ∧
     (SearchResult.mk [c6p2]).entries.head? = some c6p2 ∧
     c6p1.modifyTimestamp ≠ c6p2.modifyTimestamp) ∧
    checkerCheck (some (SearchResult.mk [c6p1])) (SearchResult.mk [c6p2]) none
      = some (some (SearchResult.mk [c6p2]), [{ before := c6p1, after := c6p2 }]) :=
  ⟨⟨rfl, rfl, rfl, by decide⟩,
   ((c6_checker_state_machine (SearchResult.mk [c6p1]) (SearchResult.mk [c6p2])).2
      c6p1 c6p2 rfl rfl rfl).2 (by decide)⟩
